import Mathlib

/-!
# Verification of the cljsbuild dependency-resolution core

Shallow embedding of `src/cljsbuild.js`: the dependency-set fingerprint
(`Maven._hashDepdendencies`), the classpath resolution cache
(`Maven.getClasspath`, `Maven.installDependencies`), and registry version
resolution (`findLatestMavenRelease`, `findLatestClojarsRelease`,
`Config._fetchLatestVersion`, `Config._findPackageVersions`).

Machine words are modelled as `Nat` reduced mod `2^32`; strings are Lean
`String`s; the filesystem is an explicit map from file names to
`Option String`; the external build tool (`mvn`, invoked through `sh`) is an
explicit outcome parameter.
-/

namespace Cljsbuild

/-! ## SHA-1 (`crypto.createHash('sha1').update(s).digest().toString('hex')`)

`hash.update(string)` interprets the string as UTF-8; the digest is printed
as lowercase hex.  Words are `Nat` taken mod `2^32`. -/

/-- Truncate to a 32-bit word. -/
def w32 (x : Nat) : Nat := x % 4294967296

/-- Rotate the 32-bit word `x` left by `k` bits (`0 < k < 32`, `x < 2^32`). -/
def rotl (k x : Nat) : Nat := w32 (x <<< k) ||| (x >>> (32 - k))

/-- UTF-8 encoding of a single code point (as byte values). -/
def utf8Bytes (c : Nat) : List Nat :=
  if c < 128 then [c]
  else if c < 2048 then [192 + c / 64, 128 + c % 64]
  else if c < 65536 then [224 + c / 4096, 128 + (c / 64) % 64, 128 + c % 64]
  else [240 + c / 262144, 128 + (c / 4096) % 64, 128 + (c / 64) % 64, 128 + c % 64]

/-- The UTF-8 byte sequence of a string. -/
def strBytes (s : String) : List Nat :=
  (s.data.map (fun ch => utf8Bytes ch.toNat)).flatten

/-- SHA-1 padding: append `0x80`, zeros up to 56 mod 64, then the bit length
as 8 big-endian bytes. -/
def sha1Pad (msg : List Nat) : List Nat :=
  let ml := 8 * msg.length
  let zeros := (119 - msg.length % 64) % 64
  msg ++ [128] ++ List.replicate zeros 0 ++
    [56, 48, 40, 32, 24, 16, 8, 0].map (fun sh => (ml >>> sh) % 256)

/-- Group bytes into big-endian 32-bit words. -/
def toWords : List Nat → List Nat
  | b0 :: b1 :: b2 :: b3 :: rest =>
      (b0 * 16777216 + b1 * 65536 + b2 * 256 + b3) :: toWords rest
  | _ => []

/-- One step of the SHA-1 message-schedule expansion: append
`rotl1 (w[n-3] xor w[n-8] xor w[n-14] xor w[n-16])`. -/
def sha1Expand (w : List Nat) : List Nat :=
  let n := w.length
  w ++ [rotl 1 (((w.getD (n - 3) 0 ^^^ w.getD (n - 8) 0) ^^^ w.getD (n - 14) 0)
                  ^^^ w.getD (n - 16) 0)]

/-- Iterate a function `n` times. -/
def iterate (f : α → α) : Nat → α → α
  | 0, a => a
  | n + 1, a => iterate f n (f a)

/-- SHA-1 working state: the five 32-bit registers. -/
structure Sha1State where
  h0 : Nat
  h1 : Nat
  h2 : Nat
  h3 : Nat
  h4 : Nat

/-- One of the 80 SHA-1 rounds: `i` is the round index, `w` the schedule word. -/
def sha1Round (st : Sha1State) (iw : Nat × Nat) : Sha1State :=
  let i := iw.1
  let w := iw.2
  let a := st.h0
  let b := st.h1
  let c := st.h2
  let d := st.h3
  let e := st.h4
  let f :=
    if i < 20 then (b &&& c) ||| ((b ^^^ 4294967295) &&& d)
    else if i < 40 then (b ^^^ c) ^^^ d
    else if i < 60 then ((b &&& c) ||| (b &&& d)) ||| (c &&& d)
    else (b ^^^ c) ^^^ d
  let k :=
    if i < 20 then 1518500249
    else if i < 40 then 1859775393
    else if i < 60 then 2400959708
    else 3395469782
  let temp := w32 (rotl 5 a + f + e + k + w)
  ⟨temp, a, rotl 30 b, c, d⟩

/-- Compress one 16-word block into the running state. -/
def sha1Compress (st : Sha1State) (block : List Nat) : Sha1State :=
  let w80 := iterate sha1Expand 64 block
  let r := w80.enum.foldl sha1Round st
  ⟨w32 (st.h0 + r.h0), w32 (st.h1 + r.h1), w32 (st.h2 + r.h2),
   w32 (st.h3 + r.h3), w32 (st.h4 + r.h4)⟩

/-- Fold the compression function over consecutive 16-word blocks. -/
def sha1Blocks (st : Sha1State) : List Nat → Sha1State
  | w0 :: w1 :: w2 :: w3 :: w4 :: w5 :: w6 :: w7 ::
    w8 :: w9 :: w10 :: w11 :: w12 :: w13 :: w14 :: w15 :: rest =>
      sha1Blocks
        (sha1Compress st [w0, w1, w2, w3, w4, w5, w6, w7,
                          w8, w9, w10, w11, w12, w13, w14, w15]) rest
  | _ => st

/-- A lowercase hex digit. -/
def hexDigit (n : Nat) : Char :=
  if n < 10 then Char.ofNat (48 + n) else Char.ofNat (87 + n)

/-- Fixed-width (`width`-digit) lowercase hex rendering of `n` (most significant first). -/
def hexChars : Nat → Nat → List Char
  | 0, _ => []
  | w + 1, n => hexChars w (n / 16) ++ [hexDigit (n % 16)]

/-- SHA-1 digest of a byte sequence, rendered as 40 lowercase hex chars. -/
def sha1Hex (msg : List Nat) : String :=
  let st := sha1Blocks ⟨1732584193, 4023233417, 2562383102, 271733878, 3285377520⟩
              (toWords (sha1Pad msg))
  String.mk (hexChars 8 st.h0 ++ hexChars 8 st.h1 ++ hexChars 8 st.h2 ++
             hexChars 8 st.h3 ++ hexChars 8 st.h4)

/-! ## Dependency fingerprint (`Maven._hashDepdendencies`)

The source reads `dependencies` from the config (a JS object, i.e. an
insertion-ordered map with duplicate-free string keys); we model it as an
association list `List (String × String)` with `Nodup` keys where needed.

The source pushes the `[name, version]` pairs, sorts them with

    (a, b) => { const x = a[0]; const y = b[0];
                if (x < y) return -1;
                if (y > x) return 1;   -- same test as x < y: unreachable
                return 0; }

so the comparator returns a negative number exactly when `a[0] < b[0]` and
`0` otherwise.  The engine's sort orders `x` before `y` when
`comparator(x, y) < 0`, i.e. by the strict lexicographic order on keys; we
therefore model the call as a sort of the pair list by key order (keys are
duplicate-free, so the sorted list is uniquely determined). -/

/-- Ordering on dependency pairs used by the sort: compare the keys. -/
def depLe (a b : String × String) : Prop := a.1 ≤ b.1

instance : DecidableRel depLe := fun a b => inferInstanceAs (Decidable (a.1 ≤ b.1))

/-- Model of `dependencyList.sort(...)`: sort the `[name, version]` pairs by name. -/
def sortDeps (l : List (String × String)) : List (String × String) :=
  List.insertionSort depLe l

/-- Model of `dependencyList.map(d => d[0] + d[1]).join('')`: the canonical
serialization hashed by `_hashDepdendencies`. -/
def dependencyString (l : List (String × String)) : String :=
  String.join ((sortDeps l).map (fun d => d.1 ++ d.2))

/-- Model of `Maven._hashDepdendencies`, applied to the dependency map read from the
config: sha1 of the canonical serialization, as lowercase hex. -/
def hashDependencies (l : List (String × String)) : String :=
  sha1Hex (strBytes (dependencyString l))

/-! ## Release filtering (`releaseRegex = /^[0-9]+\.[0-9]+\.[0-9]+(-[0-9]+)?$/`)

Both registry functions test candidate versions against this anchored
regex when `releasesOnly` is set; `item.version.match(releaseRegex)` is
truthy exactly when the whole string matches. -/

/-- Consume a nonempty run of decimal digits; `none` when the input does not
start with a digit, otherwise the rest of the input. -/
def numThen (l : List Char) : Option (List Char) :=
  if (l.takeWhile Char.isDigit).isEmpty then none
  else some (l.dropWhile Char.isDigit)

/-- Consume one expected literal character. -/
def expectChar (c : Char) : List Char → Option (List Char)
  | [] => none
  | x :: t => if x = c then some t else none

/-- The optional `(-[0-9]+)?$` tail of the release pattern: either the end of
the string, or `-` followed by digits reaching the end of the string. -/
def releaseTail (r : List Char) : Bool :=
  r.isEmpty || (((expectChar '-' r).bind numThen).map List.isEmpty).getD false

/-- Whether `s` matches `^[0-9]+\.[0-9]+\.[0-9]+(-[0-9]+)?$`: digits, a dot,
digits, a dot, digits, then the optional `-digits` tail, consuming the whole
string. -/
def releaseMatch (s : String) : Bool :=
  match ((((numThen s.data).bind (expectChar '.')).bind numThen).bind
           (expectChar '.')).bind numThen with
  | none => false
  | some r3 => releaseTail r3

/-- The spec's strict release pattern: `MAJOR.MINOR.PATCH` optionally suffixed
with `-BUILD`, all components nonempty strings of decimal digits.  (Stated
from the spec's words, for comparison with the source regex `releaseMatch`.) -/
def IsStrictRelease (s : String) : Prop :=
  ∃ a b c : List Char,
    a ≠ [] ∧ b ≠ [] ∧ c ≠ [] ∧
    (∀ ch ∈ a, ch.isDigit) ∧ (∀ ch ∈ b, ch.isDigit) ∧ (∀ ch ∈ c, ch.isDigit) ∧
    (s.data = a ++ ('.' :: (b ++ ('.' :: c))) ∨
      ∃ d : List Char, d ≠ [] ∧ (∀ ch ∈ d, ch.isDigit) ∧
        s.data = a ++ ('.' :: (b ++ ('.' :: (c ++ ('-' :: d))))))

/-! ## Registry queries

`findLatestMavenRelease` queries the primary registry (search.maven.org)
restricted server-side to the coordinate and receives `data.response.docs`,
a ranked candidate list of which only the version field `v` is used; we
model the response as that list of version strings.

`findLatestClojarsRelease` queries the secondary registry (clojars.org)
with a free-text search and receives `data.results`, items carrying
`group_name`, `jar_name` and `version`; the source filters by the release
regex (when `releasesOnly`) and then by exact coordinate match, and takes
the first remaining item's version (`(release || {}).version`, i.e. absent
when nothing remains). -/

/-- One item of the clojars search response. -/
structure ClojarsItem where
  group_name : String
  jar_name : String
  version : String
deriving DecidableEq

/-- Model of `findLatestMavenRelease` applied to the parsed response `docs`. -/
def findLatestMavenRelease (docs : List String) (releasesOnly : Bool) :
    Option String :=
  if releasesOnly then (docs.filter releaseMatch).head?
  else docs.head?

/-- Model of `findLatestClojarsRelease` applied to the parsed response `results`. -/
def findLatestClojarsRelease (groupId artifactId : String)
    (results : List ClojarsItem) (releasesOnly : Bool) : Option String :=
  (((results.filter (fun item => if releasesOnly then releaseMatch item.version else true)).filter
      (fun item => item.group_name == groupId && item.jar_name == artifactId)).head?).map
    (fun item => item.version)

/-- The two registry responses relevant to one coordinate. -/
structure RegistryData where
  mavenDocs : List String
  clojarsResults : List ClojarsItem

/-- JS truthiness of an optional version string (`undefined` and `''` are
falsy). -/
def isTruthyVersion : Option String → Bool
  | none => false
  | some v => v ≠ ""

/-- Model of `name.split('/')[0]`. -/
def coordGroupId (name : String) : String := (name.splitOn "/").headD ""

/-- Model of `name.split('/')[1] || groupId`. -/
def coordArtifactId (name : String) : String :=
  match (name.splitOn "/").drop 1 with
  | [] => coordGroupId name
  | a :: _ => if a = "" then coordGroupId name else a

/-- Model of `Config._fetchLatestVersion`: query maven first; only when it yields no
(truthy) version, query clojars.  Returns the resolved `{name, version}`
pair (or `none`, which the source logs as "no version found" and resolves —
not a rejection), together with a flag recording whether the clojars
(secondary) registry was queried at all. -/
def fetchLatestVersion (name : String) (releasesOnly : Bool)
    (reg : RegistryData) : Option (String × String) × Bool :=
  let mv := findLatestMavenRelease reg.mavenDocs releasesOnly
  if isTruthyVersion mv then ((mv.map (fun v => (name, v))), false)
  else
    let cv := findLatestClojarsRelease (coordGroupId name) (coordArtifactId name)
                reg.clojarsResults releasesOnly
    if isTruthyVersion cv then ((cv.map (fun v => (name, v))), true)
    else (none, true)

/-- Model of `Config._findPackageVersions`: resolve every coordinate (the per-name
registry responses are given by `reg`) and collect the defined results into
the `name -> version` map, dropping the `undefined` ones. -/
def findPackageVersions (packages : List String) (releasesOnly : Bool)
    (reg : String → RegistryData) : List (String × String) :=
  packages.filterMap (fun name => (fetchLatestVersion name releasesOnly (reg name)).1)

/-! ## Filesystem model and the Maven classpath cache

The filesystem is a map from file names to contents (`none` = the file does
not exist).  `path.resolve(path.join(tempdir, f))` is modelled as the name
`tempdir ++ "/" ++ f`: resolution to an absolute path is injective on
names within one working directory and plays no other role here. -/

/-- The filesystem: file name to contents. -/
def FS : Type := String → Option String

/-- Model of `fs.writeFileSync name content`. -/
def fsWrite (fs : FS) (name content : String) : FS :=
  fun f => if f = name then some content else fs f

/-- Delete one entry of the filesystem map.  This is a statement-building
helper (used to compare a state against the same state with a file absent),
not the model of the source's `removeFile` — see `removeFile` below. -/
def fsRemove (fs : FS) (name : String) : FS :=
  fun f => if f = name then none else fs f

/-- Model of `removeFile`: the source calls the asynchronous `fs.unlink`
WITHOUT a callback; on current Node (10 and later) that call throws
`ERR_INVALID_CALLBACK` synchronously before touching the filesystem, the
surrounding try/catch swallows the error, and the file stays in place (on
the older engines it was a fire-and-forget asynchronous unlink).  Under the
same current-engine semantics used for the sort model, the net effect on
the filesystem is none. -/
def removeFile (fs : FS) (name : String) : FS := fs

/-- Model of `readFile`: return `''` when the file does not exist (the source maps
`ENOENT` to the empty string). -/
def readFile (fs : FS) (name : String) : String :=
  (fs name).getD ""

/-- The configuration values `Maven` reads: `tempdir` and `dependencies`. -/
structure MavenConfig where
  tempdir : String
  dependencies : List (String × String)

/-- Model of `Maven._getPomXmlPath`. -/
def pomXmlPath (cfg : MavenConfig) : String := cfg.tempdir ++ "/pom.xml"

/-- The `classpath.value` cache artifact path in `getClasspath`. -/
def classpathValueFile (cfg : MavenConfig) : String :=
  cfg.tempdir ++ "/classpath.value"

/-- The `classpath.hash` cache artifact path in `getClasspath`. -/
def classpathHashFile (cfg : MavenConfig) : String :=
  cfg.tempdir ++ "/classpath.hash"

/-- One `<dependency>` block of `createPomXml`. -/
def pomDependencyLines (kv : String × String) : List String :=
  let res := kv.1.splitOn "/"
  let groupId := res.headD ""
  let artifactId := match res.drop 1 with
    | [] => groupId
    | a :: _ => if a = "" then groupId else a
  ["<dependency>",
   "  <groupId>" ++ groupId ++ "</groupId>",
   "  <artifactId>" ++ artifactId ++ "</artifactId>",
   "  <version>" ++ kv.2 ++ "</version>",
   "</dependency>"]

/-- Model of `Maven.createPomXml`: the transient project descriptor written to
`pomXmlPath` before invoking the external tool. -/
def pomXmlContent (cfg : MavenConfig) : String :=
  String.intercalate "\n"
    (["<project>", "<modelVersion>4.0.0</modelVersion>",
      "<groupId>org.clojars.YOUR-CLOJARS-USERNAME-HERE</groupId>",
      "<artifactId>JAR-NAME-HERE</artifactId>",
      "<version>JAR-VERSION-HERE</version>",
      "<name>JAR-NAME-HERE</name>",
      "<description>JAR-DESCRIPTION-HERE</description>",
      "<licenses>", "  <license>",
      "    <name>Eclipse Public License 1.0</name>",
      "    <url>http://opensource.org/licenses/eclipse-1.0.php</url>",
      "    <distribution>repo</distribution>",
      "  </license>", "</licenses>",
      "<repositories>", "  <repository>", "    <id>clojars</id>",
      "    <url>http://clojars.org/repo/</url>",
      "  </repository>", "</repositories>",
      "<dependencies>"] ++
     (cfg.dependencies.map pomDependencyLines).flatten ++
     ["</dependencies>", "</project>", ""])

/-- Outcome of one `sh`-invocation of the external build tool
(`mvn dependency:build-classpath -Dmdep.outputFile=...`): on success it
materializes the resolved classpath into the requested output file and
returns normally; on failure `execSync` throws and nothing is written. -/
inductive MvnResult where
  | success (classpath : String)
  | failure
deriving DecidableEq

/-- Result of `Maven.getClasspath`: the returned value or the propagated
error, the resulting filesystem, and how often the external recomputation
was invoked. -/
structure ClasspathOutcome where
  result : Except Unit String
  fs : FS
  recomputeCount : Nat

/-- The cache-hit test of `getClasspath`:
`(lastDependencyHash === currentDependencyHash) && cachedClasspath`
(string truthiness: the cached value must be nonempty). -/
def cacheHit (cfg : MavenConfig) (fs : FS) : Prop :=
  readFile fs (classpathHashFile cfg) = hashDependencies cfg.dependencies ∧
    readFile fs (classpathValueFile cfg) ≠ ""

instance (cfg : MavenConfig) (fs : FS) : Decidable (cacheHit cfg fs) :=
  inferInstanceAs (Decidable (_ ∧ _))

/-- Model of `Maven.getClasspath`: serve the cached classpath when the persisted hash
matches the current dependency hash and a nonempty cached value exists;
otherwise write the transient pom, run the external tool (which on success
writes the classpath to `classpath.value`), persist the fresh hash, and
re-read and return the value.  Either way the `finally` clause calls
`removeFile` on the pom, which on current Node fails silently and leaves
the file in place. -/
def getClasspath (cfg : MavenConfig) (fs : FS) (mvn : MvnResult) :
    ClasspathOutcome :=
  let lastHash := readFile fs (classpathHashFile cfg)
  let currentHash := hashDependencies cfg.dependencies
  let cached := readFile fs (classpathValueFile cfg)
  if lastHash = currentHash ∧ cached ≠ "" then
    ⟨.ok cached, fs, 0⟩
  else
    let fs1 := fsWrite fs (pomXmlPath cfg) (pomXmlContent cfg)
    match mvn with
    | .success cp =>
        let fs2 := fsWrite fs1 (classpathValueFile cfg) cp
        let fs3 := fsWrite fs2 (classpathHashFile cfg) currentHash
        ⟨.ok (readFile fs3 (classpathValueFile cfg)),
         removeFile fs3 (pomXmlPath cfg), 1⟩
    | .failure =>
        ⟨.error (), removeFile fs1 (pomXmlPath cfg), 1⟩

/-- Model of `Maven.installDependencies`: write the transient pom, run
`mvn install` (`mvnOk` is whether the external invocation succeeds), then
call `removeFile` on the pom in a `finally` — which on current Node fails
silently, leaving the file in place. -/
def installDependencies (cfg : MavenConfig) (fs : FS) (mvnOk : Bool) :
    Except Unit Unit × FS :=
  let fs1 := fsWrite fs (pomXmlPath cfg) (pomXmlContent cfg)
  ((if mvnOk then .ok () else .error ()), removeFile fs1 (pomXmlPath cfg))

/-- Strict key order on dependency pairs. -/
def depLt (a b : String × String) : Prop := a.1 < b.1

instance : IsTotal (String × String) depLe := ⟨fun a b => le_total a.1 b.1⟩

instance : IsTrans (String × String) depLe := ⟨fun _ _ _ h1 h2 => le_trans h1 h2⟩

instance : IsAntisymm (String × String) depLt :=
  ⟨fun _ _ h1 h2 => absurd h2 (lt_asymm h1)⟩

/-! ## Example instances used by the witnesses -/

/-- A concrete configuration. -/
def exampleCfg : MavenConfig :=
  ⟨".cljsbuild", [("org.clojure/clojurescript", "1.9.229")]⟩

/-- The empty filesystem. -/
def emptyFS : FS := fun _ => none

/-- A filesystem holding a matching persisted hash and a nonempty value. -/
def exampleHitFS : FS := fun f =>
  if f = classpathHashFile exampleCfg then
    some (hashDependencies exampleCfg.dependencies)
  else if f = classpathValueFile exampleCfg then some "a.jar:b.jar"
  else none

/-- A filesystem holding a matching persisted hash and an empty value file. -/
def exampleEmptyValueFS : FS := fun f =>
  if f = classpathHashFile exampleCfg then
    some (hashDependencies exampleCfg.dependencies)
  else if f = classpathValueFile exampleCfg then some ""
  else none

/-- Registry responses for the batch-resolution witness: `good/lib` resolves
on the primary registry, everything else resolves nowhere. -/
def exampleRegistry : String → RegistryData := fun n =>
  if n = "good/lib" then ⟨["1.0.0"], []⟩ else ⟨[], []⟩

/-! ## Helper lemmas: the three files under `tempdir` are distinct -/

theorem string_append_right_inj {t s₁ s₂ : String} (h : t ++ s₁ = t ++ s₂) :
    s₁ = s₂ := by
  have hd : t.data ++ s₁.data = t.data ++ s₂.data := by
    simpa [String.data_append] using congrArg String.data h
  exact String.ext (List.append_cancel_left hd)

theorem valueFile_ne_hashFile (cfg : MavenConfig) :
    classpathValueFile cfg ≠ classpathHashFile cfg := by
  intro h
  have h' : cfg.tempdir ++ "/classpath.value" = cfg.tempdir ++ "/classpath.hash" := h
  exact absurd (string_append_right_inj h') (by decide)

theorem hashFile_ne_valueFile (cfg : MavenConfig) :
    classpathHashFile cfg ≠ classpathValueFile cfg :=
  fun h => valueFile_ne_hashFile cfg h.symm

theorem valueFile_ne_pomPath (cfg : MavenConfig) :
    classpathValueFile cfg ≠ pomXmlPath cfg := by
  intro h
  have h' : cfg.tempdir ++ "/classpath.value" = cfg.tempdir ++ "/pom.xml" := h
  exact absurd (string_append_right_inj h') (by decide)

theorem hashFile_ne_pomPath (cfg : MavenConfig) :
    classpathHashFile cfg ≠ pomXmlPath cfg := by
  intro h
  have h' : cfg.tempdir ++ "/classpath.hash" = cfg.tempdir ++ "/pom.xml" := h
  exact absurd (string_append_right_inj h') (by decide)

theorem pomPath_ne_valueFile (cfg : MavenConfig) :
    pomXmlPath cfg ≠ classpathValueFile cfg :=
  fun h => valueFile_ne_pomPath cfg h.symm

theorem pomPath_ne_hashFile (cfg : MavenConfig) :
    pomXmlPath cfg ≠ classpathHashFile cfg :=
  fun h => hashFile_ne_pomPath cfg h.symm

/-! ## Cache behaviour theorems -/

/-- C5: if the persisted fingerprint equals the fingerprint of the current
dependency set and a persisted (nonempty) value exists, `getClasspath`
performs no external recomputation, changes nothing, and returns exactly
the persisted value. -/
theorem cache_hit_avoids_recomputation (cfg : MavenConfig) (fs : FS)
    (mvn : MvnResult)
    (hh : readFile fs (classpathHashFile cfg) = hashDependencies cfg.dependencies)
    (hv : readFile fs (classpathValueFile cfg) ≠ "") :
    getClasspath cfg fs mvn =
      ⟨.ok (readFile fs (classpathValueFile cfg)), fs, 0⟩ := by
  simp only [getClasspath]
  rw [if_pos ⟨hh, hv⟩]

theorem cache_hit_avoids_recomputation_witness :
    readFile exampleHitFS (classpathHashFile exampleCfg) =
        hashDependencies exampleCfg.dependencies ∧
    readFile exampleHitFS (classpathValueFile exampleCfg) ≠ "" ∧
    getClasspath exampleCfg exampleHitFS .failure =
      ⟨.ok (readFile exampleHitFS (classpathValueFile exampleCfg)),
       exampleHitFS, 0⟩ :=
  ⟨by simp [exampleHitFS, readFile],
   by simp [exampleHitFS, readFile, valueFile_ne_hashFile exampleCfg],
   cache_hit_avoids_recomputation exampleCfg exampleHitFS .failure
     (by simp [exampleHitFS, readFile])
     (by simp [exampleHitFS, readFile, valueFile_ne_hashFile exampleCfg])⟩

/-- C6: when no fingerprint is persisted or the persisted fingerprint is
stale (even if a value exists), `getClasspath` invokes the external
recomputation exactly once; on success the recomputed classpath is
persisted to the value file together with the freshly computed fingerprint
in the hash file, and is returned. -/
theorem cache_miss_recomputes_once (cfg : MavenConfig) (fs : FS)
    (mvn : MvnResult)
    (hmiss : ¬(readFile fs (classpathHashFile cfg) = hashDependencies cfg.dependencies ∧
               readFile fs (classpathValueFile cfg) ≠ "")) :
    (getClasspath cfg fs mvn).recomputeCount = 1 ∧
    ∀ cp, (getClasspath cfg fs (.success cp)).result = .ok cp ∧
      (getClasspath cfg fs (.success cp)).fs (classpathValueFile cfg) = some cp ∧
      (getClasspath cfg fs (.success cp)).fs (classpathHashFile cfg) =
        some (hashDependencies cfg.dependencies) := by
  constructor
  · simp only [getClasspath]
    rw [if_neg hmiss]
    cases mvn <;> rfl
  · intro cp
    simp only [getClasspath]
    rw [if_neg hmiss]
    refine ⟨?_, ?_, ?_⟩ <;>
      simp [readFile, fsWrite, removeFile, valueFile_ne_hashFile cfg]

theorem cache_miss_recomputes_once_witness :
    (¬(readFile emptyFS (classpathHashFile exampleCfg) =
          hashDependencies exampleCfg.dependencies ∧
       readFile emptyFS (classpathValueFile exampleCfg) ≠ "")) ∧
    ((getClasspath exampleCfg emptyFS .failure).recomputeCount = 1 ∧
      ∀ cp, (getClasspath exampleCfg emptyFS (.success cp)).result = .ok cp ∧
        (getClasspath exampleCfg emptyFS (.success cp)).fs
            (classpathValueFile exampleCfg) = some cp ∧
        (getClasspath exampleCfg emptyFS (.success cp)).fs
            (classpathHashFile exampleCfg) =
          some (hashDependencies exampleCfg.dependencies)) :=
  ⟨fun h => h.2 rfl,
   cache_miss_recomputes_once exampleCfg emptyFS .failure (fun h => h.2 rfl)⟩

/-- C2: if the external recomputation fails, `getClasspath` propagates the
failure as an error and writes neither cache artifact — every file except
the transient pom (which the buggy cleanup leaves behind, see the C3
analysis) is untouched; fingerprint and
value files are written together only on a successful recomputation. -/
theorem recompute_failure_writes_nothing (cfg : MavenConfig) (fs : FS)
    (hmiss : ¬(readFile fs (classpathHashFile cfg) = hashDependencies cfg.dependencies ∧
               readFile fs (classpathValueFile cfg) ≠ "")) :
    (getClasspath cfg fs .failure).result = .error () ∧
    (∀ f, f ≠ pomXmlPath cfg → (getClasspath cfg fs .failure).fs f = fs f) ∧
    ∀ cp, (getClasspath cfg fs (.success cp)).fs (classpathHashFile cfg) =
        some (hashDependencies cfg.dependencies) ∧
      (getClasspath cfg fs (.success cp)).fs (classpathValueFile cfg) = some cp := by
  refine ⟨?_, ?_, ?_⟩
  · simp only [getClasspath]
    rw [if_neg hmiss]
  · intro f hf
    simp only [getClasspath]
    rw [if_neg hmiss]
    simp [removeFile, fsWrite, hf]
  · intro cp
    simp only [getClasspath]
    rw [if_neg hmiss]
    constructor <;>
      simp [fsWrite, removeFile, valueFile_ne_hashFile cfg]

theorem recompute_failure_writes_nothing_witness :
    (¬(readFile emptyFS (classpathHashFile exampleCfg) =
          hashDependencies exampleCfg.dependencies ∧
       readFile emptyFS (classpathValueFile exampleCfg) ≠ "")) ∧
    ((getClasspath exampleCfg emptyFS .failure).result = .error () ∧
     (∀ f, f ≠ pomXmlPath exampleCfg →
        (getClasspath exampleCfg emptyFS .failure).fs f = emptyFS f) ∧
     ∀ cp, (getClasspath exampleCfg emptyFS (.success cp)).fs
            (classpathHashFile exampleCfg) =
          some (hashDependencies exampleCfg.dependencies) ∧
        (getClasspath exampleCfg emptyFS (.success cp)).fs
            (classpathValueFile exampleCfg) = some cp) :=
  ⟨fun h => h.2 rfl,
   recompute_failure_writes_nothing exampleCfg emptyFS (fun h => h.2 rfl)⟩

/-- C3: the transient pom.xml is NOT removed.  Both `installDependencies`
and the recompute path of `getClasspath` do call `removeFile` on the pom in
a `finally` clause, but `removeFile` invokes the asynchronous `fs.unlink`
without its mandatory callback, so on current Node the call raises
`ERR_INVALID_CALLBACK`, the try/catch swallows it, and the generated
project descriptor survives both operations — contradicting the spec's
guaranteed-cleanup requirement (and the cleanup the code itself attempts).
Evaluating the code: after either operation, whether the external
invocation succeeds or fails, the pom file still holds the generated
descriptor. -/
theorem transient_pom_not_removed (cfg : MavenConfig) (fs : FS)
    (mvnOk : Bool) (mvn : MvnResult)
    (hmiss : ¬(readFile fs (classpathHashFile cfg) = hashDependencies cfg.dependencies ∧
               readFile fs (classpathValueFile cfg) ≠ "")) :
    (installDependencies cfg fs mvnOk).2 (pomXmlPath cfg) =
      some (pomXmlContent cfg) ∧
    (getClasspath cfg fs mvn).fs (pomXmlPath cfg) = some (pomXmlContent cfg) := by
  constructor
  · simp [installDependencies, removeFile, fsWrite]
  · simp only [getClasspath]
    rw [if_neg hmiss]
    cases mvn <;>
      simp [removeFile, fsWrite, pomPath_ne_valueFile cfg, pomPath_ne_hashFile cfg]

theorem transient_pom_not_removed_witness :
    (¬(readFile emptyFS (classpathHashFile exampleCfg) =
          hashDependencies exampleCfg.dependencies ∧
       readFile emptyFS (classpathValueFile exampleCfg) ≠ "")) ∧
    ((installDependencies exampleCfg emptyFS false).2 (pomXmlPath exampleCfg) =
        some (pomXmlContent exampleCfg) ∧
     (getClasspath exampleCfg emptyFS .failure).fs (pomXmlPath exampleCfg) =
        some (pomXmlContent exampleCfg)) :=
  ⟨fun h => h.2 rfl,
   transient_pom_not_removed exampleCfg emptyFS false .failure (fun h => h.2 rfl)⟩

/-- C10: a persisted value file that exists but is empty is treated exactly
like an absent value file: `readFile` yields `""` for it, the hit test
fails even when the persisted fingerprint matches the current one, the
recomputation is invoked, and the outcome is the same as with the value
file deleted. -/
theorem empty_value_file_is_cache_miss (cfg : MavenConfig) (fs : FS)
    (mvn : MvnResult)
    (hv : fs (classpathValueFile cfg) = some "")
    (hh : readFile fs (classpathHashFile cfg) = hashDependencies cfg.dependencies) :
    readFile fs (classpathValueFile cfg) = "" ∧
    (getClasspath cfg fs mvn).recomputeCount = 1 ∧
    (getClasspath cfg (fsRemove fs (classpathValueFile cfg)) mvn).recomputeCount = 1 ∧
    (getClasspath cfg fs mvn).result =
      (getClasspath cfg (fsRemove fs (classpathValueFile cfg)) mvn).result := by
  have hread : readFile fs (classpathValueFile cfg) = "" := by
    simp [readFile, hv]
  have hmiss : ¬(readFile fs (classpathHashFile cfg) = hashDependencies cfg.dependencies ∧
      readFile fs (classpathValueFile cfg) ≠ "") := fun h => h.2 hread
  have hmiss' : ¬(readFile (fsRemove fs (classpathValueFile cfg)) (classpathHashFile cfg) =
        hashDependencies cfg.dependencies ∧
      readFile (fsRemove fs (classpathValueFile cfg)) (classpathValueFile cfg) ≠ "") := by
    intro h
    exact h.2 (by simp [readFile, fsRemove])
  refine ⟨hread, ?_, ?_, ?_⟩
  · simp only [getClasspath]
    rw [if_neg hmiss]
    cases mvn <;> rfl
  · simp only [getClasspath]
    rw [if_neg hmiss']
    cases mvn <;> rfl
  · simp only [getClasspath]
    rw [if_neg hmiss, if_neg hmiss']
    cases mvn <;>
      simp [readFile, fsWrite, fsRemove, removeFile, valueFile_ne_hashFile cfg]

theorem empty_value_file_is_cache_miss_witness :
    exampleEmptyValueFS (classpathValueFile exampleCfg) = some "" ∧
    readFile exampleEmptyValueFS (classpathHashFile exampleCfg) =
      hashDependencies exampleCfg.dependencies ∧
    (readFile exampleEmptyValueFS (classpathValueFile exampleCfg) = "" ∧
     (getClasspath exampleCfg exampleEmptyValueFS .failure).recomputeCount = 1 ∧
     (getClasspath exampleCfg
        (fsRemove exampleEmptyValueFS (classpathValueFile exampleCfg))
        .failure).recomputeCount = 1 ∧
     (getClasspath exampleCfg exampleEmptyValueFS .failure).result =
       (getClasspath exampleCfg
          (fsRemove exampleEmptyValueFS (classpathValueFile exampleCfg))
          .failure).result) :=
  ⟨by simp [exampleEmptyValueFS, valueFile_ne_hashFile exampleCfg],
   by simp [exampleEmptyValueFS, readFile],
   empty_value_file_is_cache_miss exampleCfg exampleEmptyValueFS .failure
     (by simp [exampleEmptyValueFS, valueFile_ne_hashFile exampleCfg])
     (by simp [exampleEmptyValueFS, readFile])⟩

/-! ## Fingerprint order-independence -/

/-- With duplicate-free keys, the sorted dependency list is strictly sorted
by key. -/
theorem sortDeps_sorted_lt {l : List (String × String)}
    (hnd : (l.map Prod.fst).Nodup) : (sortDeps l).Sorted depLt := by
  have hs : (sortDeps l).Sorted depLe := List.sorted_insertionSort depLe l
  have hperm : (sortDeps l).Perm l := List.perm_insertionSort depLe l
  have hnd' : ((sortDeps l).map Prod.fst).Nodup :=
    ((hperm.map Prod.fst).nodup_iff).mpr hnd
  have hne : (sortDeps l).Pairwise (fun a b => a.1 ≠ b.1) :=
    List.pairwise_map.mp hnd'
  exact (hs.and hne).imp (fun h => lt_of_le_of_ne h.1 h.2)

/-- Two dependency lists with the same pairs (in any order) and
duplicate-free keys sort to the same list. -/
theorem sortDeps_eq_of_perm {l₁ l₂ : List (String × String)}
    (hnd : (l₁.map Prod.fst).Nodup) (hp : l₁.Perm l₂) :
    sortDeps l₁ = sortDeps l₂ := by
  have hnd₂ : (l₂.map Prod.fst).Nodup := ((hp.map Prod.fst).nodup_iff).mp hnd
  have hp' : (sortDeps l₁).Perm (sortDeps l₂) :=
    (List.perm_insertionSort depLe l₁).trans
      (hp.trans (List.perm_insertionSort depLe l₂).symm)
  exact List.eq_of_perm_of_sorted hp' (sortDeps_sorted_lt hnd)
    (sortDeps_sorted_lt hnd₂)

/-- C1: two dependency sets containing identical key/version pairs —
regardless of the order the pairs were inserted in — produce identical
fingerprints under `Maven._hashDepdendencies`. -/
theorem fingerprint_order_independent (l₁ l₂ : List (String × String))
    (hnd : (l₁.map Prod.fst).Nodup) (hp : l₁.Perm l₂) :
    hashDependencies l₁ = hashDependencies l₂ := by
  unfold hashDependencies dependencyString
  rw [sortDeps_eq_of_perm hnd hp]

theorem fingerprint_order_independent_witness :
    (([("org.clojure/clojurescript", "1.9.229"), ("org.clojure/clojure", "1.8.0")].map
        (Prod.fst (α := String) (β := String))).Nodup) ∧
    (List.Perm [("org.clojure/clojurescript", "1.9.229"), ("org.clojure/clojure", "1.8.0")]
      [("org.clojure/clojure", "1.8.0"), ("org.clojure/clojurescript", "1.9.229")]) ∧
    hashDependencies
        [("org.clojure/clojurescript", "1.9.229"), ("org.clojure/clojure", "1.8.0")] =
      hashDependencies
        [("org.clojure/clojure", "1.8.0"), ("org.clojure/clojurescript", "1.9.229")] :=
  ⟨by decide, by decide,
   fingerprint_order_independent _ _ (by decide) (by decide)⟩

/-! ## Release-pattern characterization -/

theorem numThen_some_elim {l r : List Char} (h : numThen l = some r) :
    ∃ a, a ≠ [] ∧ (∀ c ∈ a, c.isDigit) ∧ l = a ++ r := by
  unfold numThen at h
  by_cases he : (l.takeWhile Char.isDigit).isEmpty
  · simp [he] at h
  · rw [if_neg he] at h
    refine ⟨l.takeWhile Char.isDigit, ?_, fun c hc => List.mem_takeWhile_imp hc, ?_⟩
    · intro hnil
      rw [hnil] at he
      exact he rfl
    · rw [← Option.some_inj.mp h]
      exact (List.takeWhile_append_dropWhile _ _).symm

theorem takeWhile_dropWhile_split {a r : List Char} (had : ∀ c ∈ a, c.isDigit)
    (hr : ∀ c t, r = c :: t → c.isDigit = false) :
    (a ++ r).takeWhile Char.isDigit = a ∧ (a ++ r).dropWhile Char.isDigit = r := by
  induction a with
  | nil =>
    cases r with
    | nil => simp
    | cons c t => simp [List.takeWhile_cons, List.dropWhile_cons, hr c t rfl]
  | cons x xs ih =>
    have hx : x.isDigit = true := had x (List.mem_cons_self x xs)
    have hxs := ih (fun c hc => had c (List.mem_cons_of_mem x hc))
    simp [List.takeWhile_cons, List.dropWhile_cons, hx, hxs.1, hxs.2]

theorem numThen_append {a r : List Char} (ha : a ≠ []) (had : ∀ c ∈ a, c.isDigit)
    (hr : ∀ c t, r = c :: t → c.isDigit = false) :
    numThen (a ++ r) = some r := by
  have hsplit := takeWhile_dropWhile_split had hr
  unfold numThen
  rw [hsplit.1, hsplit.2, if_neg]
  simp [ha]

theorem expectChar_eq_some {c : Char} {l r : List Char}
    (h : expectChar c l = some r) : l = c :: r := by
  cases l with
  | nil => simp [expectChar] at h
  | cons x t =>
    simp only [expectChar] at h
    by_cases hx : x = c
    · rw [if_pos hx] at h
      rw [hx, Option.some_inj.mp h]
    · rw [if_neg hx] at h
      exact absurd h (by simp)

theorem releaseMatch_imp_strict {s : String} (h : releaseMatch s = true) :
    IsStrictRelease s := by
  unfold releaseMatch at h
  split at h
  · exact absurd h (by simp)
  next r3 hchain =>
    obtain ⟨r2d, hchain4, hm3⟩ := Option.bind_eq_some.mp hchain
    obtain ⟨r2, hchain3, hd2⟩ := Option.bind_eq_some.mp hchain4
    obtain ⟨r1d, hchain2, hm2⟩ := Option.bind_eq_some.mp hchain3
    obtain ⟨r1, hm1, hd1⟩ := Option.bind_eq_some.mp hchain2
    obtain ⟨a, ha, had, hla⟩ := numThen_some_elim hm1
    obtain ⟨b, hb, hbd, hlb⟩ := numThen_some_elim hm2
    obtain ⟨c, hc, hcd, hlc⟩ := numThen_some_elim hm3
    have hr1 : r1 = '.' :: r1d := expectChar_eq_some hd1
    have hr2 : r2 = '.' :: r2d := expectChar_eq_some hd2
    subst hr1 hr2
    refine ⟨a, b, c, ha, hb, hc, had, hbd, hcd, ?_⟩
    unfold releaseTail at h
    by_cases hemp : r3 = []
    · subst hemp
      left
      rw [hla, hlb, hlc]
      simp
    · have hemp' : r3.isEmpty = false := by
        cases r3 with
        | nil => exact absurd rfl hemp
        | cons x t => rfl
      rw [hemp', Bool.false_or] at h
      cases he : expectChar '-' r3 with
      | none => rw [he] at h; simp at h
      | some t3 =>
        rw [he, Option.some_bind] at h
        cases hm4 : numThen t3 with
        | none => rw [hm4] at h; simp at h
        | some r4 =>
          rw [hm4] at h
          have hr4 : r4 = [] := by simpa using h
          have hr3 : r3 = '-' :: t3 := expectChar_eq_some he
          obtain ⟨d, hd, hdd, hld⟩ := numThen_some_elim hm4
          right
          refine ⟨d, hd, hdd, ?_⟩
          rw [hla, hlb, hlc, hr3, hld, hr4]
          simp

theorem expectChar_same (c : Char) (t : List Char) :
    expectChar c (c :: t) = some t := by
  simp [expectChar]

theorem strict_imp_releaseMatch {s : String} (h : IsStrictRelease s) :
    releaseMatch s = true := by
  obtain ⟨a, b, c, ha, hb, hc, had, hbd, hcd, hcase⟩ := h
  have hdotDigit : ∀ (x : List Char) (ch : Char) (t : List Char),
      '.' :: x = ch :: t → ch.isDigit = false := by
    intro x ch t ht
    cases ht
    decide
  have hdashDigit : ∀ (x : List Char) (ch : Char) (t : List Char),
      '-' :: x = ch :: t → ch.isDigit = false := by
    intro x ch t ht
    cases ht
    decide
  have hnilDigit : ∀ (ch : Char) (t : List Char),
      ([] : List Char) = ch :: t → ch.isDigit = false := by
    intro ch t ht
    cases ht
  unfold releaseMatch
  cases hcase with
  | inl hdata =>
    have h1 : numThen (a ++ ('.' :: (b ++ ('.' :: c)))) =
        some ('.' :: (b ++ ('.' :: c))) := numThen_append ha had (hdotDigit _)
    have h2 : numThen (b ++ ('.' :: c)) = some ('.' :: c) :=
      numThen_append hb hbd (hdotDigit _)
    have h3 : numThen c = some [] := by
      have hx := numThen_append (r := []) hc hcd hnilDigit
      rwa [List.append_nil] at hx
    rw [hdata, h1, Option.some_bind, expectChar_same, Option.some_bind, h2,
        Option.some_bind, expectChar_same, Option.some_bind, h3]
    rfl
  | inr hrest =>
    obtain ⟨d, hd, hdd, hdata⟩ := hrest
    have h1 : numThen (a ++ ('.' :: (b ++ ('.' :: (c ++ ('-' :: d)))))) =
        some ('.' :: (b ++ ('.' :: (c ++ ('-' :: d))))) :=
      numThen_append ha had (hdotDigit _)
    have h2 : numThen (b ++ ('.' :: (c ++ ('-' :: d)))) =
        some ('.' :: (c ++ ('-' :: d))) := numThen_append hb hbd (hdotDigit _)
    have h3 : numThen (c ++ ('-' :: d)) = some ('-' :: d) :=
      numThen_append hc hcd (hdashDigit _)
    have h4 : numThen d = some [] := by
      have hx := numThen_append (r := []) hd hdd hnilDigit
      rwa [List.append_nil] at hx
    rw [hdata, h1, Option.some_bind, expectChar_same, Option.some_bind, h2,
        Option.some_bind, expectChar_same, Option.some_bind, h3]
    show releaseTail ('-' :: d) = true
    unfold releaseTail
    rw [expectChar_same, Option.some_bind, h4]
    simp

/-- C8: when `releasesOnly` is set, a candidate version passes the release
filter iff it matches the strict pattern `MAJOR.MINOR.PATCH` optionally
suffixed with `-BUILD` (all numeric components); `"1.2.3"` and `"1.2.3-4"`
pass while `"1.2.3-alpha"` and `"2.0.0-rc1"` are rejected; when
`releasesOnly` is not set, both registry lookups accept every candidate
unfiltered. -/
theorem release_filtering_characterization :
    (∀ v : String, releaseMatch v = true ↔ IsStrictRelease v) ∧
    releaseMatch "1.2.3" = true ∧
    releaseMatch "1.2.3-4" = true ∧
    releaseMatch "1.2.3-alpha" = false ∧
    releaseMatch "2.0.0-rc1" = false ∧
    (∀ docs, findLatestMavenRelease docs false = docs.head?) ∧
    (∀ g a results, findLatestClojarsRelease g a results false =
      ((results.filter
          (fun item => item.group_name == g && item.jar_name == a)).head?).map
        (fun item => item.version)) :=
  ⟨fun _ => ⟨releaseMatch_imp_strict, strict_imp_releaseMatch⟩,
   by decide, by decide, by decide, by decide,
   fun docs => rfl,
   fun g a results => by simp [findLatestClojarsRelease]⟩

theorem release_filtering_characterization_witness :
    releaseMatch "1.2.3" = true ∧ IsStrictRelease "1.2.3" :=
  ⟨by decide,
   (release_filtering_characterization.1 "1.2.3").mp (by decide)⟩

/-! ## Registry fallback and batch resolution -/

/-- C7: `_fetchLatestVersion` queries the primary registry (maven) first and
returns its result without consulting the secondary registry when it yields
a (truthy) version; only when the primary yields no match is the secondary
registry (clojars) queried, whose top candidate — subject to release and
exact-coordinate filtering — is returned; when both registries yield
nothing the result is absent (`none`), not an error. -/
theorem registry_fallback_order (name : String) (ro : Bool) (reg : RegistryData) :
    (isTruthyVersion (findLatestMavenRelease reg.mavenDocs ro) = true →
      fetchLatestVersion name ro reg =
        ((findLatestMavenRelease reg.mavenDocs ro).map (fun v => (name, v)), false)) ∧
    (isTruthyVersion (findLatestMavenRelease reg.mavenDocs ro) = false →
      (fetchLatestVersion name ro reg).2 = true ∧
      (isTruthyVersion (findLatestClojarsRelease (coordGroupId name)
          (coordArtifactId name) reg.clojarsResults ro) = true →
        fetchLatestVersion name ro reg =
          ((findLatestClojarsRelease (coordGroupId name) (coordArtifactId name)
              reg.clojarsResults ro).map (fun v => (name, v)), true)) ∧
      (isTruthyVersion (findLatestClojarsRelease (coordGroupId name)
          (coordArtifactId name) reg.clojarsResults ro) = false →
        (fetchLatestVersion name ro reg).1 = none)) := by
  refine ⟨fun hm => ?_, fun hm => ⟨?_, fun hc => ?_, fun hc => ?_⟩⟩
  · simp [fetchLatestVersion, hm]
  · by_cases hc : isTruthyVersion (findLatestClojarsRelease (coordGroupId name)
        (coordArtifactId name) reg.clojarsResults ro) = true <;>
      simp [fetchLatestVersion, hm, hc]
  · simp [fetchLatestVersion, hm, hc]
  · simp [fetchLatestVersion, hm, hc]

theorem registry_fallback_order_witness :
    isTruthyVersion (findLatestMavenRelease
        (RegistryData.mavenDocs ⟨["1.0.0"], []⟩) false) = true ∧
    fetchLatestVersion "org.example/lib" false ⟨["1.0.0"], []⟩ =
      ((findLatestMavenRelease (RegistryData.mavenDocs ⟨["1.0.0"], []⟩) false).map
          (fun v => ("org.example/lib", v)), false) :=
  ⟨by decide,
   (registry_fallback_order "org.example/lib" false ⟨["1.0.0"], []⟩).1 (by decide)⟩

/-- Helper: `_fetchLatestVersion` only ever resolves a pair carrying the queried
name. -/
theorem fetchLatestVersion_fst (name : String) (ro : Bool) (reg : RegistryData) :
    (fetchLatestVersion name ro reg).1 = none ∨
    ∃ v, (fetchLatestVersion name ro reg).1 = some (name, v) := by
  unfold fetchLatestVersion
  cases hm : isTruthyVersion (findLatestMavenRelease reg.mavenDocs ro) with
  | true =>
    cases hv : findLatestMavenRelease reg.mavenDocs ro with
    | none =>
      rw [hv] at hm
      exact absurd hm (by simp [isTruthyVersion])
    | some v =>
      rw [hv] at hm
      right
      exact ⟨v, by simp [hv, hm]⟩
  | false =>
    cases hc : isTruthyVersion (findLatestClojarsRelease (coordGroupId name)
        (coordArtifactId name) reg.clojarsResults ro) with
    | true =>
      cases hv : findLatestClojarsRelease (coordGroupId name)
          (coordArtifactId name) reg.clojarsResults ro with
      | none =>
        rw [hv] at hc
        exact absurd hc (by simp [isTruthyVersion])
      | some v =>
        rw [hv] at hc
        right
        exact ⟨v, by simp [hm, hv, hc]⟩
    | false => left; simp [hm, hc]

/-- C9: `_findPackageVersions` returns exactly the coordinates some registry
produced a version for; a coordinate with no match anywhere is silently
dropped from the result (no error), and in particular resolving `[X, Y]`
where `X` has no match returns just `Y`'s entry. -/
theorem registry_batch_tolerance (ro : Bool) (reg : String → RegistryData) :
    (∀ packages, (findPackageVersions packages ro reg).map Prod.fst =
      packages.filter (fun n => ((fetchLatestVersion n ro (reg n)).1).isSome)) ∧
    ∀ X Y vY, (fetchLatestVersion X ro (reg X)).1 = none →
      (fetchLatestVersion Y ro (reg Y)).1 = some (Y, vY) →
      findPackageVersions [X, Y] ro reg = [(Y, vY)] := by
  constructor
  · intro packages
    induction packages with
    | nil => rfl
    | cons n t ih =>
      rcases fetchLatestVersion_fst n ro (reg n) with hnone | ⟨v, hsome⟩
      · simpa [findPackageVersions, List.filterMap_cons, hnone, List.filter_cons]
          using ih
      · simpa [findPackageVersions, List.filterMap_cons, hsome, List.filter_cons]
          using ih
  · intro X Y vY hX hY
    simp [findPackageVersions, List.filterMap_cons, hX, hY]

theorem registry_batch_tolerance_witness :
    (fetchLatestVersion "bad/lib" false (exampleRegistry "bad/lib")).1 = none ∧
    (fetchLatestVersion "good/lib" false (exampleRegistry "good/lib")).1 =
      some ("good/lib", "1.0.0") ∧
    findPackageVersions ["bad/lib", "good/lib"] false exampleRegistry =
      [("good/lib", "1.0.0")] :=
  ⟨by decide, by decide,
   (registry_batch_tolerance false exampleRegistry).2 "bad/lib" "good/lib" "1.0.0"
     (by decide) (by decide)⟩

/-! ## Fingerprint canonicalization and sensitivity -/

theorem orderedInsert_map_keyfix (f : String × String → String × String)
    (hf : ∀ q, (f q).1 = q.1) (a : String × String) :
    ∀ l, List.orderedInsert depLe (f a) (l.map f) =
      (List.orderedInsert depLe a l).map f := by
  intro l
  induction l with
  | nil => rfl
  | cons b t ih =>
    by_cases h : depLe a b
    · have h' : depLe (f a) (f b) := by simpa [depLe, hf] using h
      simp [List.orderedInsert, h, h']
    · have h' : ¬depLe (f a) (f b) := by simpa [depLe, hf] using h
      simp [List.orderedInsert, h, h', ih]

theorem sortDeps_map_keyfix (f : String × String → String × String)
    (hf : ∀ q, (f q).1 = q.1) :
    ∀ l, sortDeps (l.map f) = (sortDeps l).map f := by
  intro l
  induction l with
  | nil => rfl
  | cons a t ih =>
    show List.orderedInsert depLe (f a) (sortDeps (t.map f)) = _
    rw [ih, orderedInsert_map_keyfix f hf]
    rfl

theorem data_foldl_append (L : List String) :
    ∀ acc : String, (L.foldl (fun r s => r ++ s) acc).data =
      acc.data ++ (L.map String.data).flatten := by
  induction L with
  | nil => intro acc; simp
  | cons s t ih =>
    intro acc
    simp only [List.foldl_cons, List.map_cons, List.flatten_cons]
    rw [ih (acc ++ s), String.data_append, List.append_assoc]

theorem data_join (L : List String) :
    (String.join L).data = (L.map String.data).flatten := by
  show (L.foldl (fun r s => r ++ s) "").data = _
  rw [data_foldl_append]
  rfl

theorem dependencyString_data (l : List (String × String)) :
    (dependencyString l).data =
      ((sortDeps l).map (fun d => d.1.data ++ d.2.data)).flatten := by
  unfold dependencyString
  rw [data_join, List.map_map]
  congr 1

theorem keys_nodup_decompose {p s : List (String × String)} {k v : String}
    (hnd : ((p ++ (k, v) :: s).map Prod.fst).Nodup) :
    k ∉ p.map Prod.fst ∧ k ∉ s.map Prod.fst := by
  rw [List.map_append, List.map_cons, List.nodup_append] at hnd
  obtain ⟨h1, h2, h3⟩ := hnd
  exact ⟨fun hk => h3 hk (List.mem_cons_self _ _), (List.nodup_cons.mp h2).1⟩

theorem map_substVersion {l : List (String × String)} {k v' : String}
    (hk : k ∉ l.map Prod.fst) :
    l.map (fun q => if q.1 = k then (k, v') else q) = l := by
  have hfix : ∀ q ∈ l,
      (fun q : String × String => if q.1 = k then (k, v') else q) q = id q := by
    intro q hq
    have hq1 : q.1 ≠ k := fun h => hk (h ▸ List.mem_map_of_mem Prod.fst hq)
    simp [hq1]
  rw [List.map_congr_left hfix, List.map_id]

theorem map_subst_eq {p s : List (String × String)} {k : String}
    (v v' : String) (hkp : k ∉ p.map Prod.fst) (hks : k ∉ s.map Prod.fst) :
    (p ++ (k, v) :: s).map (fun q => if q.1 = k then (k, v') else q) =
      p ++ (k, v') :: s := by
  rw [List.map_append, List.map_cons, map_substVersion hkp, map_substVersion hks]
  simp

/-- Changing the version of a single coordinate (keys unchanged and
duplicate-free) changes the canonical serialization. -/
theorem dependencyString_version_sensitive
    {p s : List (String × String)} {k v v' : String}
    (hnd : ((p ++ (k, v) :: s).map Prod.fst).Nodup) (hne : v ≠ v') :
    dependencyString (p ++ (k, v) :: s) ≠ dependencyString (p ++ (k, v') :: s) := by
  have hfkey : ∀ q : String × String,
      ((fun q : String × String => if q.1 = k then (k, v') else q) q).1 = q.1 := by
    intro q
    by_cases h : q.1 = k <;> simp [h]
  obtain ⟨hkp, hks⟩ := keys_nodup_decompose hnd
  have hmem : (k, v) ∈ sortDeps (p ++ (k, v) :: s) :=
    (List.perm_insertionSort depLe _).symm.subset (by simp)
  obtain ⟨A, B, hAB⟩ := List.append_of_mem hmem
  have hndS : ((sortDeps (p ++ (k, v) :: s)).map Prod.fst).Nodup :=
    (((List.perm_insertionSort depLe _).map Prod.fst).nodup_iff).mpr hnd
  rw [hAB] at hndS
  obtain ⟨hkA, hkB⟩ := keys_nodup_decompose hndS
  have hsort' : sortDeps (p ++ (k, v') :: s) = A ++ (k, v') :: B := by
    rw [← map_subst_eq v v' hkp hks, sortDeps_map_keyfix _ hfkey,
      hAB, map_subst_eq v v' hkA hkB]
  intro hEq
  have hdata := congrArg String.data hEq
  rw [dependencyString_data, dependencyString_data, hAB, hsort'] at hdata
  simp only [List.map_append, List.map_cons, List.flatten_append,
    List.flatten_cons, ← List.append_assoc] at hdata
  exact hne (String.ext (List.append_cancel_left
    (List.append_cancel_right hdata)))

theorem dependencyString_length (l : List (String × String)) :
    (dependencyString l).data.length =
      (l.map (fun d => d.1.data.length + d.2.data.length)).sum := by
  rw [dependencyString_data, List.length_flatten, List.map_map]
  have h1 : ∀ d ∈ sortDeps l, (List.length ∘ fun d : String × String =>
      d.1.data ++ d.2.data) d = d.1.data.length + d.2.data.length :=
    fun d _ => List.length_append _ _
  rw [List.map_congr_left h1]
  exact ((List.perm_insertionSort depLe l).map _).sum_eq

/-- Adding (or, read right to left, removing) a coordinate whose key and
version are not both empty changes the canonical serialization. -/
theorem dependencyString_add_sensitive {p s : List (String × String)}
    {k v : String} (hkv : k ++ v ≠ "") :
    dependencyString (p ++ (k, v) :: s) ≠ dependencyString (p ++ s) := by
  intro hEq
  have hlen := congrArg (fun t : String => t.data.length) hEq
  simp only [dependencyString_length, List.map_append, List.sum_append,
    List.map_cons, List.sum_cons] at hlen
  have hpos : k.data.length + v.data.length ≠ 0 := by
    intro h0
    have hk : k.data = [] := List.length_eq_zero.mp (by omega)
    have hv : v.data = [] := List.length_eq_zero.mp (by omega)
    apply hkv
    apply String.ext
    rw [String.data_append, hk, hv]
    rfl
  omega

/-- C4 counterexample: the claim "adding or removing a coordinate yields a
different fingerprint" fails at the degenerate coordinate `("", "")`:
adding it to the set `{"a": "1"}` (keys stay duplicate-free) leaves the
canonical serialization, and hence the fingerprint, unchanged. -/
theorem fingerprint_add_coordinate_counterexample :
    ((("", "") :: [("a", "1")]).map (Prod.fst (α := String) (β := String))).Nodup ∧
    (("", "") :: [("a", "1")] : List (String × String)) ≠ [("a", "1")] ∧
    hashDependencies (("", "") :: [("a", "1")]) = hashDependencies [("a", "1")] :=
  ⟨by decide, by decide, by
    have h1 : depLe ("", "") ("a", "1") := by
      show ("" : String) ≤ "a"
      intro hlt
      rw [String.lt_iff_toList_lt] at hlt
      exact nomatch hlt
    have hsort : sortDeps (("", "") :: [("a", "1")]) = ("", "") :: [("a", "1")] := by
      show List.orderedInsert depLe ("", "")
        (List.orderedInsert depLe ("a", "1") []) = _
      rw [List.orderedInsert_nil, List.orderedInsert_of_le _ _ h1]
    have hds : dependencyString (("", "") :: [("a", "1")]) =
        dependencyString [("a", "1")] := by
      unfold dependencyString
      rw [hsort]
      rfl
    exact congrArg (fun t => sha1Hex (strBytes t)) hds⟩

/-- C4 (amended): the fingerprint is the sha1 digest of the canonical
serialization obtained by sorting the coordinate keys and concatenating the
`key ++ version` pairs in that order; changing any single version string
changes the serialization (hence the fingerprint up to sha1 collision), and
adding or removing a coordinate changes the serialization provided its key
and version are not both empty. -/
theorem fingerprint_canonicalization_and_sensitivity :
    (∀ l : List (String × String),
        hashDependencies l = sha1Hex (strBytes (dependencyString l)) ∧
        dependencyString l = String.join ((sortDeps l).map (fun d => d.1 ++ d.2))) ∧
    (∀ (p s : List (String × String)) (k v v' : String),
        ((p ++ (k, v) :: s).map Prod.fst).Nodup → v ≠ v' →
        dependencyString (p ++ (k, v) :: s) ≠ dependencyString (p ++ (k, v') :: s)) ∧
    (∀ (p s : List (String × String)) (k v : String), k ++ v ≠ "" →
        dependencyString (p ++ (k, v) :: s) ≠ dependencyString (p ++ s)) :=
  ⟨fun _ => ⟨rfl, rfl⟩,
   fun _ _ _ _ _ hnd hne => dependencyString_version_sensitive hnd hne,
   fun _ _ _ _ hkv => dependencyString_add_sensitive hkv⟩

theorem fingerprint_canonicalization_and_sensitivity_witness :
    ((([] ++ ("a", "1") :: []).map (Prod.fst (α := String) (β := String))).Nodup ∧
     ("1" : String) ≠ "2" ∧
     dependencyString ([] ++ ("a", "1") :: []) ≠
       dependencyString ([] ++ ("a", "2") :: [])) ∧
    (("a" : String) ++ "1" ≠ "" ∧
     dependencyString ([] ++ ("a", "1") :: []) ≠ dependencyString ([] ++ [])) :=
  ⟨⟨by decide, by decide,
    fingerprint_canonicalization_and_sensitivity.2.1 [] [] "a" "1" "2"
      (by decide) (by decide)⟩,
   by decide,
   fingerprint_canonicalization_and_sensitivity.2.2 [] [] "a" "1" (by decide)⟩

end Cljsbuild
